import Mathlib

/-! Verification of the markupify page builder (`src/markupify/page.py`).

The `HTMLPage` class of `page.py` is embedded shallowly: each method becomes a
Lean function on an explicit `HTMLPage` state record.  The collaborating tag
classes (`Element`, `Html`, `Head`, `Body`, `DocType` from `markupify.tags`)
are not part of the source tree; they are modelled from the spec as simple
value objects with a string-rendering contract.  Python dynamic values that
flow through the API (None, strings, element objects) are modelled by the
`Frag` type together with Python's `str()` and truthiness semantics.
-/

namespace Markupify

/-- Modelled from the spec: a fragment value handed to the page API.  A caller
may pass Python `None`, a plain string, or a tag object (`Element`, `Head`,
`Body`, ...) whose canonical string form is its rendered markup (spec section 3:
every value object supports conversion to its canonical string form). -/
inductive Frag where
  | pyNone : Frag
  | str (s : String) : Frag
  | elem (rendered : String) : Frag
deriving DecidableEq

/-- Python `str()` applied to a fragment: `str(None)` is the literal `"None"`,
strings are returned unchanged, tag objects render to their markup string. -/
def Frag.toStr : Frag → String
  | .pyNone => "None"
  | .str s => s
  | .elem r => r

/-- Python truthiness (`bool(x)`): `None` is falsy, a string is truthy iff
nonempty, tag objects are truthy (modelled from the spec: the tag classes
define no falsiness of their own). -/
def Frag.truthy : Frag → Bool
  | .pyNone => false
  | .str s => s != ""
  | .elem _ => true

/-- Modelled from the spec: the `Head` element of `markupify.tags` (not under
`src/`) — accumulated tag content plus an attribute map in insertion order.
`Head()` with no arguments has empty content and no attributes. -/
structure Head where
  tag_content : String
  props : List (String × String)
deriving DecidableEq

/-- The empty head element, i.e. `Head()`. -/
def Head.empty : Head := ⟨"", []⟩

/-- Modelled from the spec: the `Body` element of `markupify.tags` (not under
`src/`). -/
structure Body where
  tag_content : String
  props : List (String × String)
deriving DecidableEq

/-- The empty body element, i.e. `Body()`. -/
def Body.empty : Body := ⟨"", []⟩

/-- Modelled from the spec: attribute rendering, insertion order preserved
(spec section 6: attribute rendering order is the insertion order of the map). -/
def renderProps (props : List (String × String)) : String :=
  props.foldl (fun acc kv => acc ++ " " ++ kv.1 ++ "=\"" ++ kv.2 ++ "\"") ""

/-- Modelled from the spec: string form of a `Head` — open tag, content,
close tag. -/
def Head.render (h : Head) : String :=
  "<head" ++ renderProps h.props ++ ">" ++ h.tag_content ++ "</head>"

/-- Modelled from the spec: string form of a `Body`. -/
def Body.render (b : Body) : String :=
  "<body" ++ renderProps b.props ++ ">" ++ b.tag_content ++ "</body>"

/-- Modelled from the spec: the `Html` element — wraps its content with the
configured language attribute. -/
structure Html where
  tag_content : String
  lang : String
deriving DecidableEq

/-- Modelled from the spec: string form of the html element,
`<html lang="...">` wrapping the content. -/
def Html.render (h : Html) : String :=
  "<html lang=\"" ++ h.lang ++ "\">" ++ h.tag_content ++ "</html>"

/-- Modelled from the spec: the constant-valued `DocType` element. -/
inductive DocType where
  | mk : DocType
deriving DecidableEq

/-- Modelled from the spec: the fixed document type declaration token. -/
def DocType.render (_ : DocType) : String := "<!DOCTYPE html>"

/-- One piece of a format template: a literal run or one of the two named
fields of the page template. -/
inductive TemplatePiece where
  | lit (s : String) : TemplatePiece
  | docTypeField : TemplatePiece
  | htmlField : TemplatePiece
deriving DecidableEq

/-- The string contributed by one template piece given the two field values. -/
def pieceStr (docType html : String) : TemplatePiece → String
  | .lit s => s
  | .docTypeField => docType
  | .htmlField => html

/-- Shallow embedding of Python `template.format(doc_type=..., html=...)`:
the template pieces are concatenated, each named field replaced by its
argument. -/
def formatTemplate : List TemplatePiece → String → String → String
  | [], _, _ => ""
  | p :: rest, docType, html => pieceStr docType html p ++ formatTemplate rest docType html

/-- The page template string of `page.py` line 52, a doc_type field directly
followed by an html field. -/
def defaultTemplate : List TemplatePiece := [TemplatePiece.docTypeField, TemplatePiece.htmlField]

/-- The state of an `HTMLPage` instance: `page.py` lines 51-54. -/
structure HTMLPage where
  lang : String
  template : List TemplatePiece
  head : Head
  body : Body
deriving DecidableEq

/-- Embedding of `HTMLPage.set_head` (`page.py` lines 108-123): concatenates `str(tag)` over
the positional arguments into one content string, stores a fresh `Head` with
that content and the keyword attribute map, and returns it. -/
def HTMLPage.set_head (p : HTMLPage) (args : List Frag) (props : List (String × String)) :
    HTMLPage × Head :=
  let content := args.foldl (fun acc tag => acc ++ tag.toStr) ""
  let h : Head := ⟨content, props⟩
  ({ p with head := h }, h)

/-- Embedding of `HTMLPage.set_body` (`page.py` lines 125-140). -/
def HTMLPage.set_body (p : HTMLPage) (args : List Frag) (props : List (String × String)) :
    HTMLPage × Body :=
  let content := args.foldl (fun acc tag => acc ++ tag.toStr) ""
  let b : Body := ⟨content, props⟩
  ({ p with body := b }, b)

/-- Embedding of `HTMLPage.__init__` (`page.py` lines 31-54): stores the language and the
fixed template, then
`self.head = self.set_head(head) if not bool(head) else Head()` and the same
for the body — a truthy initial argument selects the bare `Head()` / `Body()`,
a falsy one is routed through `set_head` / `set_body`. -/
def HTMLPage.init (head body : Frag) (lang : String) : HTMLPage :=
  let p0 : HTMLPage := { lang := lang, template := defaultTemplate
                         head := Head.empty, body := Body.empty }
  let p1 : HTMLPage := if head.truthy then { p0 with head := Head.empty }
                       else (p0.set_head [head] []).1
  let p2 : HTMLPage := if body.truthy then { p1 with body := Body.empty }
                       else (p1.set_body [body] []).1
  p2

/-- The `doc_type` property (`page.py` lines 83-92): a fresh `DocType`. -/
def HTMLPage.doc_type (_ : HTMLPage) : DocType := DocType.mk

/-- The `html` property (`page.py` lines 94-106): an `Html` element whose
content is the f-string `f"{self.head}{self.body}"` and whose `lang` is the
page language. -/
def HTMLPage.html (p : HTMLPage) : Html :=
  { tag_content := p.head.render ++ p.body.render, lang := p.lang }

/-- Embedding of `HTMLPage.render` (`page.py` lines 74-81):
`self.template.format(doc_type=self.doc_type, html=self.html)`. -/
def HTMLPage.render (p : HTMLPage) : String :=
  formatTemplate p.template (p.doc_type.render) (p.html.render)

/-- The method `render` as a state transformer, the shape of every method of the class:
the returned string together with the instance state after the call.  The
method body of `render` performs no assignment, so the state component is the
input state. -/
def HTMLPage.renderM (p : HTMLPage) : String × HTMLPage :=
  (p.render, p)

/-- Embedding of `HTMLPage.add_tag_to_head` (`page.py` lines 160-169): the loop
`for tag in args: self.head.tag_content += str(tag)`, then `return self.head`. -/
def HTMLPage.add_tag_to_head (p : HTMLPage) (args : List Frag) : HTMLPage × Head :=
  let newContent := args.foldl (fun acc tag => acc ++ tag.toStr) p.head.tag_content
  let h : Head := ⟨newContent, p.head.props⟩
  ({ p with head := h }, h)

/-- Embedding of `HTMLPage.add_tag_to_body` (`page.py` lines 171-181). -/
def HTMLPage.add_tag_to_body (p : HTMLPage) (args : List Frag) : HTMLPage × Body :=
  let newContent := args.foldl (fun acc tag => acc ++ tag.toStr) p.body.tag_content
  let b : Body := ⟨newContent, p.body.props⟩
  ({ p with body := b }, b)

/-- Embedding of `HTMLPage.pretty` (`page.py` lines 142-158).  The external pretty-printer
(`BeautifulSoup(...).prettify(encoding, formatter)`) is an injected formatting
strategy `f : String → String` (spec section 9).  The method body replaces a
falsy `html_content` argument by `self.render()` before formatting:
`if not html_content: html_content = self.render()`. -/
def HTMLPage.pretty (f : String → String) (p : HTMLPage) (html_content : Frag) : String :=
  f (if html_content.truthy then html_content.toStr else p.render)

/-- A file-system error surfaced by `open`. -/
inductive IoError where
  | cannotOpen (path : String) : IoError
deriving DecidableEq

/-- The file-system state visible to `write`: existing directories, file
contents, and the currently open file handles. -/
structure FileSystem where
  dirs : List String
  files : List (String × String)
  openHandles : List String
deriving DecidableEq

/-- The directory component of a path: everything before the final slash. -/
def dirname (path : String) : String :=
  ⟨((path.data.reverse.dropWhile (fun c => c != '/')).drop 1).reverse⟩

/-- Whether `open(path, "w")` can succeed: the containing directory exists. -/
def canOpenWrite (fs : FileSystem) (path : String) : Bool :=
  fs.dirs.contains (dirname path)

/-- Python `open(path, "w")`: acquires a handle on success, raises on failure. -/
def openWrite (fs : FileSystem) (path : String) : Except IoError FileSystem :=
  if canOpenWrite fs path then
    Except.ok { fs with openHandles := path :: fs.openHandles }
  else
    Except.error (IoError.cannotOpen path)

/-- Python `f.write(content)`: create or overwrite the file at `path`. -/
def writeFile (fs : FileSystem) (path content : String) : FileSystem :=
  { fs with files := (path, content) :: fs.files.filter (fun kv => kv.1 != path) }

/-- Leaving the `with` block: the handle for `path` is released. -/
def closeFile (fs : FileSystem) (path : String) : FileSystem :=
  { fs with openHandles := fs.openHandles.erase path }

/-- Embedding of `HTMLPage.write` (`page.py` lines 184-192):
`with open(filename, "w") as f: f.write(self.pretty())` — the handle is
acquired scoped, the pretty-printed rendering (`self.pretty()`, i.e. `pretty`
at its falsy default argument) is written, and the handle is released; an
`open` failure propagates uncaught. -/
def HTMLPage.write (f : String → String) (p : HTMLPage) (fs : FileSystem)
    (filename : String) : Except IoError FileSystem :=
  match openWrite fs filename with
  | Except.error e => Except.error e
  | Except.ok fs1 => Except.ok (closeFile (writeFile fs1 filename (p.pretty f (Frag.str ""))) filename)

/-- The states an `HTMLPage` instance can be in during its lifetime: the state
produced by the constructor, and the successor state of every mutating method.
`render`, `pretty` and `write` do not assign to the instance. -/
inductive Reachable : HTMLPage → Prop where
  | init (head body : Frag) (lang : String) : Reachable (HTMLPage.init head body lang)
  | set_head (p : HTMLPage) (args : List Frag) (props : List (String × String)) :
      Reachable p → Reachable (p.set_head args props).1
  | set_body (p : HTMLPage) (args : List Frag) (props : List (String × String)) :
      Reachable p → Reachable (p.set_body args props).1
  | add_tag_to_head (p : HTMLPage) (args : List Frag) :
      Reachable p → Reachable (p.add_tag_to_head args).1
  | add_tag_to_body (p : HTMLPage) (args : List Frag) :
      Reachable p → Reachable (p.add_tag_to_body args).1

/-- The concatenation of the string forms of a fragment list, in order. -/
def fragConcat : List Frag → String
  | [] => ""
  | tag :: rest => tag.toStr ++ fragConcat rest

/-- Boolean list-prefix test, used to state occurrence properties of rendered
strings. -/
def pfxOf : List Char → List Char → Bool
  | [], _ => true
  | _ :: _, [] => false
  | a :: l1, b :: l2 => a == b && pfxOf l1 l2

/-- The number of occurrences of `pat` in `xs`: the number of start positions
at which `pat` matches. -/
def countOcc (pat xs : List Char) : Nat :=
  (List.range (xs.length + 1)).countP (fun i => pfxOf pat (xs.drop i))

/-- A character allowed in a language code: a letter or a dash. -/
def validLangChar (c : Char) : Bool := c.isAlpha || c == '-'

/-- The characters of a `lang` attribute up to the language code itself. -/
def langPat : List Char := ("lang=\"").data

/-- The characters of the rendered document up to the language code: the
doctype token followed by the opening of the html tag. -/
def docHtmlOpen : List Char := ("<!DOCTYPE html><html lang=\"").data

/-- The characters closing the rendered document. -/
def htmlClose : List Char := ("</html>").data

/-! Helper lemmas -/

theorem foldl_toStr_eq (args : List Frag) :
    ∀ s : String, args.foldl (fun acc tag => acc ++ tag.toStr) s = s ++ fragConcat args := by
  induction args with
  | nil => intro s; simp [fragConcat]
  | cons tag rest ih =>
      intro s
      simp only [List.foldl_cons, fragConcat, ih (s ++ tag.toStr), String.append_assoc]

theorem pfx_iff_take (p : List Char) :
    ∀ l : List Char, pfxOf p l = true ↔ l.take p.length = p := by
  induction p with
  | nil => intro l; simp [pfxOf]
  | cons a p1 ih =>
      intro l
      cases l with
      | nil => simp [pfxOf]
      | cons b l1 =>
          simp only [pfxOf, Bool.and_eq_true, beq_iff_eq, List.length_cons, List.take_succ_cons,
            List.cons.injEq, ih l1]
          tauto

theorem pfx_append_self (p t : List Char) : pfxOf p (p ++ t) = true := by
  rw [pfx_iff_take, List.take_append_eq_append_take, List.take_length, Nat.sub_self,
    List.take_zero, List.append_nil]

theorem pfx_trans {a b c : List Char} (h1 : pfxOf a b = true) (h2 : pfxOf b c = true) :
    pfxOf a c = true := by
  rw [pfx_iff_take] at h1 h2 ⊢
  have hlen : a.length ≤ b.length := by
    have hl := congrArg List.length h1
    rw [List.length_take] at hl
    omega
  calc c.take a.length = (c.take b.length).take a.length := by
        rw [List.take_take, Nat.min_eq_left hlen]
    _ = b.take a.length := by rw [h2]
    _ = a := h1

theorem pfx_of_append_of_le {p x r : List Char} (h : pfxOf p (x ++ r) = true)
    (hlen : p.length ≤ x.length) : pfxOf p x = true := by
  rw [pfx_iff_take] at h ⊢
  rwa [List.take_append_eq_append_take, Nat.sub_eq_zero_of_le hlen, List.take_zero,
    List.append_nil] at h

theorem pfx_append_split {p x r : List Char} (h : pfxOf p (x ++ r) = true)
    (hlen : x.length ≤ p.length) :
    x = p.take x.length ∧ pfxOf (p.drop x.length) r = true := by
  rw [pfx_iff_take] at h
  constructor
  · have h1 := congrArg (List.take x.length) h
    rw [List.take_take, Nat.min_eq_left hlen, List.take_left] at h1
    exact h1
  · rw [pfx_iff_take]
    have h2 := congrArg (List.drop x.length) h
    rw [List.drop_take, List.drop_left] at h2
    rw [List.length_drop]
    exact h2

theorem pfx_mem {p l : List Char} {c : Char} (h : pfxOf p l = true) (hc : c ∈ p) : c ∈ l := by
  rw [pfx_iff_take] at h
  exact List.take_subset _ _ (h ▸ hc)

theorem pfx_nil_right {p : List Char} (h : pfxOf p [] = true) : p = [] := by
  cases p with
  | nil => rfl
  | cons a l => simp [pfxOf] at h

theorem pfx_head {p : List Char} {b : Char} {z : List Char} (h : pfxOf p (b :: z) = true)
    (hne : p ≠ []) : p.head? = some b := by
  cases p with
  | nil => exact absurd rfl hne
  | cons a l =>
      simp only [pfxOf, Bool.and_eq_true, beq_iff_eq] at h
      simp [h.1]

theorem pfx_append_cancel (x : List Char) :
    ∀ a b : List Char, pfxOf (x ++ a) (x ++ b) = pfxOf a b := by
  induction x with
  | nil => intro a b; rfl
  | cons c x1 ih => intro a b; simp [pfxOf, ih]

theorem countP_range_eq_one {P : Nat → Bool} {i0 : Nat} (hP : ∀ j, P j = true ↔ j = i0) :
    ∀ n : Nat, i0 < n → (List.range n).countP P = 1 := by
  intro n
  induction n with
  | zero => omega
  | succ n ih =>
      intro hn
      rw [List.range_succ, List.countP_append]
      rcases Nat.lt_or_ge i0 n with hlt | hge
      · rw [ih hlt]
        have hPn : ¬ P n = true := by rw [hP]; omega
        simp [List.countP_cons, hPn]
      · have hi0 : i0 = n := by omega
        have hz : (List.range n).countP P = 0 := by
          rw [List.countP_eq_zero]
          intro a ha
          rw [List.mem_range] at ha
          rw [hP]; omega
        have hPn : P n = true := by rw [hP]; omega
        simp [hz, List.countP_cons, hPn]

theorem countOcc_eq_zero_no_match {pat l : List Char} (hne : pat ≠ [])
    (h : countOcc pat l = 0) : ∀ i, ¬ pfxOf pat (l.drop i) = true := by
  intro i hocc
  rcases Nat.lt_or_ge i (l.length + 1) with hlt | hge
  · rw [countOcc, List.countP_eq_zero] at h
    exact h i (List.mem_range.mpr hlt) hocc
  · rw [List.drop_eq_nil_of_le (by omega)] at hocc
    exact hne (pfx_nil_right hocc)

theorem render_shape (p : HTMLPage) (hT : p.template = defaultTemplate) :
    p.render = "<!DOCTYPE html>" ++ Html.render ⟨p.head.render ++ p.body.render, p.lang⟩ := by
  simp [HTMLPage.render, HTMLPage.doc_type, DocType.render, HTMLPage.html, hT, defaultTemplate,
    formatTemplate, pieceStr, String.append_empty]

theorem render_data (p : HTMLPage) (hT : p.template = defaultTemplate) :
    (p.render).data =
      docHtmlOpen ++ (p.lang.data ++
        ('"' :: '>' :: ((p.head.render ++ p.body.render).data ++ htmlClose))) := by
  rw [render_shape p hT]
  have h1 : docHtmlOpen = ("<!DOCTYPE html>").data ++ ("<html lang=\"").data := by decide
  have h2 : ("\">").data = ['"', '>'] := by decide
  simp [Html.render, String.data_append, h1, h2, htmlClose]

theorem lang_occ_at_21 (L RB : List Char) :
    pfxOf (langPat ++ (L ++ ['"'])) ((docHtmlOpen ++ (L ++ ('"' :: '>' :: RB))).drop 21) = true := by
  rw [List.drop_append_eq_append_drop]
  have hd : docHtmlOpen.drop 21 = langPat := by decide
  have hz : 21 - docHtmlOpen.length = 0 := by decide
  rw [hd, hz, List.drop_zero, pfx_append_cancel, pfx_append_cancel]
  simp [pfxOf]

theorem lang_occ_unique {L HB : List Char}
    (hL : ∀ c ∈ L, validLangChar c = true)
    (hHB : countOcc langPat HB = 0) :
    ∀ i, pfxOf langPat ((docHtmlOpen ++ (L ++ ('"' :: '>' :: (HB ++ htmlClose)))).drop i) = true →
      i = 21 := by
  intro i hocc
  have dA : docHtmlOpen.length = 27 := by decide
  have dlp : langPat.length = 6 := by decide
  rw [List.drop_append_eq_append_drop, dA] at hocc
  rcases Nat.lt_or_ge i 27 with h27 | h27
  · have hz : i - 27 = 0 := by omega
    rw [hz, List.drop_zero] at hocc
    rcases le_or_lt i 21 with hi | hi
    · have hlen : langPat.length ≤ (docHtmlOpen.drop i).length := by
        rw [dlp, List.length_drop, dA]; omega
      have h2 := pfx_of_append_of_le hocc hlen
      have hdec1 : ∀ j, j < 22 → pfxOf langPat (docHtmlOpen.drop j) = true → j = 21 := by decide
      exact hdec1 i (by omega) h2
    · have hlen2 : (docHtmlOpen.drop i).length ≤ langPat.length := by
        rw [dlp, List.length_drop, dA]; omega
      obtain ⟨hx, _⟩ := pfx_append_split hocc hlen2
      have hlen3 : (docHtmlOpen.drop i).length = 27 - i := by rw [List.length_drop, dA]
      rw [hlen3] at hx
      have hdec2 : ∀ j, j < 27 → 22 ≤ j → ¬(docHtmlOpen.drop j = langPat.take (27 - j)) := by
        decide
      exact absurd hx (hdec2 i (by omega) (by omega))
  · have hnil : docHtmlOpen.drop i = [] := List.drop_eq_nil_of_le (by omega)
    rw [hnil, List.nil_append, List.drop_append_eq_append_drop] at hocc
    rcases Nat.lt_or_ge (i - 27) L.length with hmL | hmL
    · have hz2 : i - 27 - L.length = 0 := by omega
      rw [hz2, List.drop_zero] at hocc
      have hkdef : (L.drop (i - 27)).length = L.length - (i - 27) := List.length_drop _ L
      rcases le_or_lt 6 (L.length - (i - 27)) with hk6 | hk6
      · have h2 := pfx_of_append_of_le hocc (by rw [dlp, hkdef]; omega)
        have hmem : ('=' : Char) ∈ L.drop (i - 27) := pfx_mem h2 (by decide)
        exact absurd (hL '=' (List.drop_subset _ _ hmem)) (by decide)
      · obtain ⟨hx, hrest⟩ := pfx_append_split hocc (by rw [dlp, hkdef]; omega)
        rw [hkdef] at hx hrest
        rcases Nat.lt_or_ge (L.length - (i - 27)) 5 with hk5 | hk5
        · have hne : langPat.drop (L.length - (i - 27)) ≠ [] := by
            intro hcon
            have hl2 := congrArg List.length hcon
            rw [List.length_drop, dlp] at hl2
            simp only [List.length_nil] at hl2
            omega
          have hh := pfx_head hrest hne
          have hD2 : ∀ k, k < 6 → (langPat.drop k).head? = some '"' → k = 5 := by decide
          have := hD2 (L.length - (i - 27)) (by omega) hh
          omega
        · have hk : L.length - (i - 27) = 5 := by omega
          rw [hk] at hx
          have h5 : ('=' : Char) ∈ langPat.take 5 := by decide
          rw [← hx] at h5
          exact absurd (hL '=' (List.drop_subset _ _ h5)) (by decide)
    · have hnil2 : L.drop (i - 27) = [] := List.drop_eq_nil_of_le (by omega)
      rw [hnil2, List.nil_append] at hocc
      have hcases : i - 27 - L.length = 0 ∨ i - 27 - L.length = 1 ∨
          2 ≤ i - 27 - L.length := by omega
      rcases hcases with h0 | h1 | h2p
      · rw [h0, List.drop_zero] at hocc
        exact absurd (pfx_head hocc (by decide)) (by decide)
      · rw [h1] at hocc
        simp only [List.drop_succ_cons, List.drop_zero] at hocc
        exact absurd (pfx_head hocc (by decide)) (by decide)
      · have hj2 : i - 27 - L.length = (i - 29 - L.length) + 2 := by omega
        rw [hj2] at hocc
        simp only [List.drop_succ_cons] at hocc
        rw [List.drop_append_eq_append_drop] at hocc
        rcases le_or_lt 6 (HB.drop (i - 29 - L.length)).length with hj6 | hj6
        · have h2 := pfx_of_append_of_le hocc (by rw [dlp]; omega)
          exact absurd h2 (countOcc_eq_zero_no_match (by decide) hHB (i - 29 - L.length))
        · obtain ⟨hx, hrest⟩ := pfx_append_split hocc (by rw [dlp]; omega)
          rcases Nat.lt_or_ge (i - 29 - L.length - HB.length) 7 with hm7 | hm7
          · have hD3 : ∀ k, k < 6 → ∀ mm, mm < 7 →
                ¬ pfxOf (langPat.drop k) (htmlClose.drop mm) = true := by decide
            exact absurd hrest (hD3 _ (by omega) _ (by omega))
          · have hc7 : htmlClose.length = 7 := by decide
            have hnil3 : htmlClose.drop (i - 29 - L.length - HB.length) = [] :=
              List.drop_eq_nil_of_le (by omega)
            rw [hnil3] at hrest
            have hl3 := congrArg List.length (pfx_nil_right hrest)
            rw [List.length_drop, dlp] at hl3
            simp only [List.length_nil] at hl3
            omega

theorem set_head_eq (p : HTMLPage) (args : List Frag) (props : List (String × String)) :
    p.set_head args props =
      ({ p with head := ⟨fragConcat args, props⟩ }, (⟨fragConcat args, props⟩ : Head)) := by
  simp [HTMLPage.set_head, foldl_toStr_eq, String.empty_append]

theorem set_body_eq (p : HTMLPage) (args : List Frag) (props : List (String × String)) :
    p.set_body args props =
      ({ p with body := ⟨fragConcat args, props⟩ }, (⟨fragConcat args, props⟩ : Body)) := by
  simp [HTMLPage.set_body, foldl_toStr_eq, String.empty_append]

theorem add_tag_to_head_eq (p : HTMLPage) (args : List Frag) :
    p.add_tag_to_head args =
      ({ p with head := ⟨p.head.tag_content ++ fragConcat args, p.head.props⟩ },
        (⟨p.head.tag_content ++ fragConcat args, p.head.props⟩ : Head)) := by
  simp [HTMLPage.add_tag_to_head, foldl_toStr_eq]

theorem add_tag_to_body_eq (p : HTMLPage) (args : List Frag) :
    p.add_tag_to_body args =
      ({ p with body := ⟨p.body.tag_content ++ fragConcat args, p.body.props⟩ },
        (⟨p.body.tag_content ++ fragConcat args, p.body.props⟩ : Body)) := by
  simp [HTMLPage.add_tag_to_body, foldl_toStr_eq]

theorem init_head_eq (h b : Frag) (lang : String) :
    (HTMLPage.init h b lang).head = if h.truthy then Head.empty else ⟨h.toStr, []⟩ := by
  rcases hh : h.truthy <;> rcases hb : b.truthy <;>
    simp [HTMLPage.init, HTMLPage.set_head, HTMLPage.set_body, hh, hb,
      String.empty_append, String.append_empty, Head.empty]

theorem init_body_eq (h b : Frag) (lang : String) :
    (HTMLPage.init h b lang).body = if b.truthy then Body.empty else ⟨b.toStr, []⟩ := by
  rcases hh : h.truthy <;> rcases hb : b.truthy <;>
    simp [HTMLPage.init, HTMLPage.set_head, HTMLPage.set_body, hh, hb,
      String.empty_append, String.append_empty, Body.empty]

theorem str_ne_append_of_ne_empty (a c : String) (hc : c ≠ "") : a ≠ a ++ c := by
  intro h
  apply hc
  apply String.ext
  have hd := congrArg String.data h
  rw [String.data_append] at hd
  have hl := congrArg List.length hd
  rw [List.length_append] at hl
  have hz : c.data.length = 0 := by omega
  rw [List.length_eq_zero] at hz
  simpa using hz

/-! Claim theorems -/

/-- C1: for every call of the `HTMLPage` constructor, the initial head/body
argument is only honored when falsy — a truthy initial head (body) is
discarded and the empty `Head()` (`Body()`) is substituted in its place,
while a falsy one is routed through `set_head` (`set_body`) and so becomes
the stored section content. -/
theorem init_honors_only_falsy (h b : Frag) (lang : String) :
    (h.truthy = true → (HTMLPage.init h b lang).head = Head.empty) ∧
    (h.truthy = false → (HTMLPage.init h b lang).head = ⟨h.toStr, []⟩) ∧
    (b.truthy = true → (HTMLPage.init h b lang).body = Body.empty) ∧
    (b.truthy = false → (HTMLPage.init h b lang).body = ⟨b.toStr, []⟩) := by
  refine ⟨?_, ?_, ?_, ?_⟩ <;> intro ht <;>
    simp [init_head_eq, init_body_eq, ht]

/-- Witness for C1 at a concrete truthy head and falsy body. -/
theorem init_honors_only_falsy_witness :
    (Frag.elem "<meta>").truthy = true ∧
    (HTMLPage.init (Frag.elem "<meta>") Frag.pyNone "en").head = Head.empty ∧
    Frag.pyNone.truthy = false ∧
    (HTMLPage.init (Frag.elem "<meta>") Frag.pyNone "en").body = ⟨Frag.pyNone.toStr, []⟩ :=
  ⟨rfl, (init_honors_only_falsy (Frag.elem "<meta>") Frag.pyNone "en").1 rfl, rfl,
    (init_honors_only_falsy (Frag.elem "<meta>") Frag.pyNone "en").2.2.2 rfl⟩

/-- C2: `render()` returns the full document string — the doctype string
followed by an html element whose content is the head string form
concatenated with the body string form (head first), wrapped with the page
language attribute — and the output begins with the doctype token. -/
theorem render_full_document (p : HTMLPage) (hT : p.template = defaultTemplate) :
    p.render = (HTMLPage.doc_type p).render ++
      Html.render ⟨p.head.render ++ p.body.render, p.lang⟩ ∧
    ∃ rest, p.render = (HTMLPage.doc_type p).render ++ rest :=
  ⟨render_shape p hT, ⟨_, render_shape p hT⟩⟩

/-- Witness for C2 at a concrete page. -/
theorem render_full_document_witness :
    (HTMLPage.init Frag.pyNone Frag.pyNone "en").template = defaultTemplate ∧
    ((HTMLPage.init Frag.pyNone Frag.pyNone "en").render =
      (HTMLPage.doc_type (HTMLPage.init Frag.pyNone Frag.pyNone "en")).render ++
        Html.render ⟨(HTMLPage.init Frag.pyNone Frag.pyNone "en").head.render ++
          (HTMLPage.init Frag.pyNone Frag.pyNone "en").body.render,
          (HTMLPage.init Frag.pyNone Frag.pyNone "en").lang⟩ ∧
      ∃ rest, (HTMLPage.init Frag.pyNone Frag.pyNone "en").render =
        (HTMLPage.doc_type (HTMLPage.init Frag.pyNone Frag.pyNone "en")).render ++ rest) :=
  ⟨rfl, render_full_document (HTMLPage.init Frag.pyNone Frag.pyNone "en") rfl⟩

/-- C3: `set_head` (and identically `set_body`) concatenates the string forms
of the positional fragments in call order into one content string, stores a
new `Head` (`Body`) with that content and the given attributes, and returns
it; the new section does not depend on the prior state, so a second
`set_head` fully replaces the first. -/
theorem set_head_set_body_replace (p : HTMLPage) (args : List Frag)
    (props : List (String × String)) :
    p.set_head args props =
      ({ p with head := ⟨fragConcat args, props⟩ }, (⟨fragConcat args, props⟩ : Head)) ∧
    (p.set_head args props).2 = (p.set_head args props).1.head ∧
    p.set_body args props =
      ({ p with body := ⟨fragConcat args, props⟩ }, (⟨fragConcat args, props⟩ : Body)) ∧
    (p.set_body args props).2 = (p.set_body args props).1.body ∧
    (∀ (q : HTMLPage) (args1 : List Frag) (props1 : List (String × String)),
      ((q.set_head args1 props1).1.set_head args props).1.head.tag_content = fragConcat args ∧
      ((q.set_body args1 props1).1.set_body args props).1.body.tag_content = fragConcat args) := by
  refine ⟨set_head_eq p args props, ?_, set_body_eq p args props, ?_, ?_⟩
  · rw [set_head_eq]
  · rw [set_body_eq]
  · intro q args1 props1
    constructor
    · rw [set_head_eq, set_head_eq]
    · rw [set_body_eq, set_body_eq]

/-- C4 counterexample: the claim asserts a strict prefix for every fragment
sequence, but a fragment whose string form is empty leaves the content
unchanged, so the prior content is not a strict prefix of the new content. -/
theorem add_tag_strict_cex :
    ¬ (pfxOf (HTMLPage.init (Frag.str "x") (Frag.str "x") "en").head.tag_content.data
          (((HTMLPage.init (Frag.str "x") (Frag.str "x") "en").add_tag_to_head
            [Frag.str ""]).2.tag_content.data) = true ∧
        (HTMLPage.init (Frag.str "x") (Frag.str "x") "en").head.tag_content ≠
          ((HTMLPage.init (Frag.str "x") (Frag.str "x") "en").add_tag_to_head
            [Frag.str ""]).2.tag_content) := by
  decide

/-- C4 (amended): `add_tag_to_head` (and identically `add_tag_to_body`)
appends, not replaces — the prior content is a string prefix of the new
content, strict whenever the concatenated fragment string forms are
nonempty; the fragment strings are appended verbatim in call order, and the
mutated section object is returned. -/
theorem add_tag_appends (p : HTMLPage) (args : List Frag) :
    p.add_tag_to_head args =
      ({ p with head := ⟨p.head.tag_content ++ fragConcat args, p.head.props⟩ },
        (⟨p.head.tag_content ++ fragConcat args, p.head.props⟩ : Head)) ∧
    (p.add_tag_to_head args).2 = (p.add_tag_to_head args).1.head ∧
    p.add_tag_to_body args =
      ({ p with body := ⟨p.body.tag_content ++ fragConcat args, p.body.props⟩ },
        (⟨p.body.tag_content ++ fragConcat args, p.body.props⟩ : Body)) ∧
    (p.add_tag_to_body args).2 = (p.add_tag_to_body args).1.body ∧
    pfxOf p.head.tag_content.data ((p.add_tag_to_head args).2.tag_content.data) = true ∧
    pfxOf p.body.tag_content.data ((p.add_tag_to_body args).2.tag_content.data) = true ∧
    (fragConcat args ≠ "" →
      p.head.tag_content ≠ (p.add_tag_to_head args).2.tag_content ∧
      p.body.tag_content ≠ (p.add_tag_to_body args).2.tag_content) := by
  refine ⟨add_tag_to_head_eq p args, ?_, add_tag_to_body_eq p args, ?_, ?_, ?_, ?_⟩
  · rw [add_tag_to_head_eq]
  · rw [add_tag_to_body_eq]
  · rw [add_tag_to_head_eq]
    simp only [String.data_append]
    exact pfx_append_self _ _
  · rw [add_tag_to_body_eq]
    simp only [String.data_append]
    exact pfx_append_self _ _
  · intro hne
    constructor
    · rw [add_tag_to_head_eq]
      exact str_ne_append_of_ne_empty _ _ hne
    · rw [add_tag_to_body_eq]
      exact str_ne_append_of_ne_empty _ _ hne

/-- Witness for C4 (amended) at a concrete page and a nonempty fragment. -/
theorem add_tag_appends_witness :
    fragConcat [Frag.str "<p>hi</p>"] ≠ "" ∧
    ((HTMLPage.init (Frag.str "x") (Frag.str "x") "en").head.tag_content ≠
      ((HTMLPage.init (Frag.str "x") (Frag.str "x") "en").add_tag_to_head
        [Frag.str "<p>hi</p>"]).2.tag_content ∧
     (HTMLPage.init (Frag.str "x") (Frag.str "x") "en").body.tag_content ≠
      ((HTMLPage.init (Frag.str "x") (Frag.str "x") "en").add_tag_to_body
        [Frag.str "<p>hi</p>"]).2.tag_content) :=
  ⟨by decide,
    (add_tag_appends (HTMLPage.init (Frag.str "x") (Frag.str "x") "en")
      [Frag.str "<p>hi</p>"]).2.2.2.2.2.2 (by decide)⟩

/-- C5: `render()` is a deterministic, pure function of the page state: the
method returns the rendered string and leaves every field of the state
(lang, head, body, template) unchanged, so two calls with no intervening
mutation return identical strings. -/
theorem render_deterministic_pure (p : HTMLPage) :
    p.renderM = (p.render, p) ∧
    p.renderM.1 = (p.renderM.2).renderM.1 ∧
    (p.renderM.2).lang = p.lang ∧
    (p.renderM.2).head = p.head ∧
    (p.renderM.2).body = p.body ∧
    (p.renderM.2).template = p.template :=
  ⟨rfl, rfl, rfl, rfl, rfl, rfl⟩

/-- C6: through the whole lifetime of a page — after construction and after
every operation — the page owns exactly one `Head` and exactly one `Body`,
never null: in the embedding the constructor and every mutating method are
total and always store a `Head`/`Body` value in the two section fields. -/
theorem page_owns_one_head_one_body (p : HTMLPage) (hp : Reachable p) :
    (∃! h : Head, p.head = h) ∧ (∃! b : Body, p.body = b) := by
  cases hp <;>
    exact ⟨⟨_, rfl, fun y hy => hy.symm⟩, ⟨_, rfl, fun y hy => hy.symm⟩⟩

/-- Witness for C6 at a freshly constructed page. -/
theorem page_owns_one_head_one_body_witness :
    Reachable (HTMLPage.init Frag.pyNone Frag.pyNone "en") ∧
    ((∃! h : Head, (HTMLPage.init Frag.pyNone Frag.pyNone "en").head = h) ∧
     (∃! b : Body, (HTMLPage.init Frag.pyNone Frag.pyNone "en").body = b)) :=
  ⟨Reachable.init Frag.pyNone Frag.pyNone "en",
    page_owns_one_head_one_body (HTMLPage.init Frag.pyNone Frag.pyNone "en")
      (Reachable.init Frag.pyNone Frag.pyNone "en")⟩

/-- C7: `write(path)` acquires the file handle scoped, writes the
pretty-printed rendering of the current page, and releases the handle (the
open-handle set is unchanged after the call); when the path cannot be opened
the I/O error propagates to the caller uncaught — it never silently
succeeds. -/
theorem write_scoped_propagates (f : String → String) (p : HTMLPage) (fs : FileSystem)
    (path : String) :
    (canOpenWrite fs path = false →
      p.write f fs path = Except.error (IoError.cannotOpen path)) ∧
    (canOpenWrite fs path = true →
      p.write f fs path = Except.ok
        ⟨fs.dirs, (path, f p.render) :: fs.files.filter (fun kv => kv.1 != path),
          fs.openHandles⟩) := by
  constructor <;> intro hc <;>
    simp [HTMLPage.write, openWrite, hc, writeFile, closeFile, HTMLPage.pretty, Frag.truthy,
      Frag.toStr, List.erase_cons_head]

/-- Witness for C7: a nonexistent directory makes `write` fail with the
propagated error, an existing one makes it write the pretty-printed render
with the handle set unchanged. -/
theorem write_scoped_propagates_witness :
    canOpenWrite ⟨["/tmp"], [], []⟩ "/nonexistent-dir/out.html" = false ∧
    HTMLPage.write id (HTMLPage.init Frag.pyNone Frag.pyNone "en") ⟨["/tmp"], [], []⟩
      "/nonexistent-dir/out.html" =
      Except.error (IoError.cannotOpen "/nonexistent-dir/out.html") ∧
    canOpenWrite ⟨["/tmp"], [], []⟩ "/tmp/out.html" = true ∧
    HTMLPage.write id (HTMLPage.init Frag.pyNone Frag.pyNone "en") ⟨["/tmp"], [], []⟩
      "/tmp/out.html" = Except.ok
        ⟨["/tmp"], [("/tmp/out.html", id (HTMLPage.init Frag.pyNone Frag.pyNone "en").render)],
          []⟩ :=
  ⟨by decide,
    (write_scoped_propagates id (HTMLPage.init Frag.pyNone Frag.pyNone "en")
      ⟨["/tmp"], [], []⟩ "/nonexistent-dir/out.html").1 (by decide),
    by decide,
    (write_scoped_propagates id (HTMLPage.init Frag.pyNone Frag.pyNone "en")
      ⟨["/tmp"], [], []⟩ "/tmp/out.html").2 (by decide)⟩

/-- C8 counterexample: an explicitly passed empty content string is falsy, so
`pretty` formats the rendering of the page instead of the given content. -/
theorem pretty_explicit_empty_cex :
    HTMLPage.pretty id (HTMLPage.init Frag.pyNone Frag.pyNone "en") (Frag.str "") =
      (HTMLPage.init Frag.pyNone Frag.pyNone "en").render ∧
    HTMLPage.pretty id (HTMLPage.init Frag.pyNone Frag.pyNone "en") (Frag.str "") ≠ id "" := by
  exact ⟨rfl, by decide⟩

/-- C8 (amended): `pretty` renders the current page first exactly when the
content argument is falsy (which includes the default empty string); a
truthy content argument is prettified as given. -/
theorem pretty_renders_on_falsy (f : String → String) (p : HTMLPage) (c : Frag) :
    (c.truthy = false → HTMLPage.pretty f p c = f p.render) ∧
    (c.truthy = true → HTMLPage.pretty f p c = f c.toStr) := by
  constructor <;> intro hc <;> simp [HTMLPage.pretty, hc]

/-- Witness for C8 (amended) at a falsy and at a truthy content argument. -/
theorem pretty_renders_on_falsy_witness :
    (Frag.str "").truthy = false ∧
    HTMLPage.pretty id (HTMLPage.init Frag.pyNone Frag.pyNone "en") (Frag.str "") =
      id (HTMLPage.init Frag.pyNone Frag.pyNone "en").render ∧
    (Frag.str "<p>hi</p>").truthy = true ∧
    HTMLPage.pretty id (HTMLPage.init Frag.pyNone Frag.pyNone "en") (Frag.str "<p>hi</p>") =
      id (Frag.str "<p>hi</p>").toStr :=
  ⟨rfl,
    (pretty_renders_on_falsy id (HTMLPage.init Frag.pyNone Frag.pyNone "en") (Frag.str "")).1 rfl,
    by decide,
    (pretty_renders_on_falsy id (HTMLPage.init Frag.pyNone Frag.pyNone "en")
      (Frag.str "<p>hi</p>")).2 (by decide)⟩

/-- C10 counterexample: the empty string is falsy, yet constructing a page
with it as the head argument yields an empty head content — the claim that a
falsy argument never yields empty content fails. -/
theorem init_falsy_empty_cex :
    (Frag.str "").truthy = false ∧
    (HTMLPage.init (Frag.str "") Frag.pyNone "en").head.tag_content = "" := by
  decide

/-- C10 (amended): a falsy constructor argument is passed through
`set_head`/`set_body` and stringified, so `head=None` yields the literal
four-character content `"None"` (likewise for the body); a falsy empty
string however yields empty content. -/
theorem init_falsy_stringified (h b : Frag) (lang : String) :
    (h.truthy = false → (HTMLPage.init h b lang).head.tag_content = h.toStr) ∧
    (b.truthy = false → (HTMLPage.init h b lang).body.tag_content = b.toStr) ∧
    (HTMLPage.init Frag.pyNone b lang).head.tag_content = "None" ∧
    (HTMLPage.init h Frag.pyNone lang).body.tag_content = "None" ∧
    ("None").length = 4 := by
  refine ⟨?_, ?_, ?_, ?_, rfl⟩
  · intro ht
    rw [init_head_eq, ht]
    simp
  · intro ht
    rw [init_body_eq, ht]
    simp
  · rw [init_head_eq]
    rfl
  · rw [init_body_eq]
    rfl

/-- C9 counterexample: body content may itself carry a `lang` attribute, in
which case the rendered output contains the `lang="L"` byte pattern twice,
not exactly once. -/
theorem render_lang_count_cex :
    countOcc (("lang=\"en\"").data)
      ((((HTMLPage.init (Frag.str "x") (Frag.str "x") "en").add_tag_to_body
          [Frag.str "<div lang=\"en\"></div>"]).1.render).data) = 2 := by
  decide

/-- C9 (amended): for a language code made of letters and dashes, if the head
and body string forms contain no occurrence of the `lang="` pattern, the
output of `render()` contains the `lang="L"` pattern exactly once, and that
occurrence is at position 21 — inside the opening html tag, directly after
the doctype token and `<html `. -/
theorem render_lang_once (p : HTMLPage) (hT : p.template = defaultTemplate)
    (hL : ∀ c ∈ p.lang.data, validLangChar c = true)
    (hHB : countOcc langPat ((p.head.render ++ p.body.render).data) = 0) :
    countOcc (("lang=\"" ++ p.lang ++ "\"").data) ((p.render).data) = 1 ∧
    pfxOf (("lang=\"" ++ p.lang ++ "\"").data) (((p.render).data).drop 21) = true := by
  have hq : ("\"").data = ['"'] := by decide
  have hpat : ("lang=\"" ++ p.lang ++ "\"").data = langPat ++ (p.lang.data ++ ['"']) := by
    simp [String.data_append, langPat, hq]
  have hout := render_data p hT
  have hP : ∀ j, (pfxOf (langPat ++ (p.lang.data ++ ['"']))
      ((docHtmlOpen ++ (p.lang.data ++ ('"' :: '>' ::
        ((p.head.render ++ p.body.render).data ++ htmlClose)))).drop j)) = true ↔ j = 21 := by
    intro j
    constructor
    · intro hj
      exact lang_occ_unique hL hHB j
        (pfx_trans (pfx_append_self langPat (p.lang.data ++ ['"'])) hj)
    · intro hj
      subst hj
      exact lang_occ_at_21 p.lang.data ((p.head.render ++ p.body.render).data ++ htmlClose)
  constructor
  · rw [hpat, hout]
    unfold countOcc
    refine countP_range_eq_one hP _ ?_
    rw [List.length_append]
    have h27 : docHtmlOpen.length = 27 := by decide
    omega
  · rw [hpat, hout]
    exact lang_occ_at_21 p.lang.data ((p.head.render ++ p.body.render).data ++ htmlClose)

/-- Witness for C9 (amended) at a concrete page with empty head and body. -/
theorem render_lang_once_witness :
    (HTMLPage.init (Frag.str "x") (Frag.str "x") "en").template = defaultTemplate ∧
    (∀ c ∈ (HTMLPage.init (Frag.str "x") (Frag.str "x") "en").lang.data,
      validLangChar c = true) ∧
    countOcc langPat (((HTMLPage.init (Frag.str "x") (Frag.str "x") "en").head.render ++
      (HTMLPage.init (Frag.str "x") (Frag.str "x") "en").body.render).data) = 0 ∧
    countOcc
      (("lang=\"" ++ (HTMLPage.init (Frag.str "x") (Frag.str "x") "en").lang ++ "\"").data)
      (((HTMLPage.init (Frag.str "x") (Frag.str "x") "en").render).data) = 1 :=
  ⟨rfl, by decide, by decide,
    (render_lang_once (HTMLPage.init (Frag.str "x") (Frag.str "x") "en") rfl
      (by decide) (by decide)).1⟩

/-- Witness for C10 (amended) at the `None` arguments. -/
theorem init_falsy_stringified_witness :
    Frag.pyNone.truthy = false ∧
    (HTMLPage.init Frag.pyNone Frag.pyNone "en").head.tag_content = Frag.pyNone.toStr ∧
    (HTMLPage.init Frag.pyNone Frag.pyNone "en").body.tag_content = Frag.pyNone.toStr :=
  ⟨rfl, (init_falsy_stringified Frag.pyNone Frag.pyNone "en").1 rfl,
    (init_falsy_stringified Frag.pyNone Frag.pyNone "en").2.1 rfl⟩

end Markupify
